import Mathlib

/-!
# Software Bus (SB) transmit/receive engine — verification development

The repository excerpt contains the functional test
`src/modules/cfe_testcase/src/sb_sendrecv_test.c` exercising the SB
publish/subscribe engine (`CFE_SB_TransmitMsg`, `CFE_SB_ReceiveBuffer`,
`CFE_SB_AllocateMessageBuffer`, `CFE_SB_ReleaseMessageBuffer`,
`CFE_SB_TransmitBuffer`), while the engine implementation itself is not part
of the excerpt.  The engine below is therefore modelled from the
specification (spec.md §3 Data model, §4.1 Buffer Pool, §4.3 Pipe,
§4.5 Transmit/Receive Engine), as a sequential state machine:

* messages carry a header (id, size, type tag, sequence count) and an
  abstract payload;
* the buffer pool is a list of slots, each stamped with a liveness tag
  (`free` / `allocated` / `queued refs`) checked on every operation;
* pipes are bounded FIFO queues of delivered items; a delivered item is
  either a by-value copy (the copy path of `TransmitMsg`; the fresh pool
  buffer holding the copy is abstracted as the value itself, the pool being
  assumed ample on that path) or a shared reference to a pool slot (the
  zero-copy path of `TransmitBuffer`);
* routes bind a message id to a pipe with a per-route message limit;
* wall-clock waiting in `ReceiveBuffer` is modelled by an `elapsed` field:
  the model is sequential, so no message can arrive while a receiver waits,
  and a wait on an empty pipe runs the full timeout.
-/

namespace CFESB

/-- Modelled from the spec: the message type tag of the fixed-format header
(§3 "type tag {command, telemetry}"). -/
inductive MsgType where
  | command
  | telemetry
deriving DecidableEq, Repr

/-- Modelled from the spec: a message, i.e. a fixed-format header (message
id, total byte length, type tag, sequence count) followed by a payload
(§3 "Message"); the payload bytes are abstracted as a single natural. -/
structure Message where
  msgId : Nat
  size : Nat
  mtype : MsgType
  seqCount : Nat
  payload : Nat
deriving DecidableEq, Repr

/-- Placeholder content of a freshly allocated (uninitialized) buffer slot. -/
def dummyMsg : Message := ⟨0, 0, .command, 0, 0⟩

/-- Modelled from the spec: the liveness tag stamped on each pool slot
(§4.1 "stamping each slot with a liveness tag checked on every operation";
§3 Buffer lifecycle `Free → Allocated → Enqueued (refcounted) → Free`). -/
inductive BufState where
  | free
  | allocated
  | queued (refs : Nat)
deriving DecidableEq, Repr

/-- Modelled from the spec: one buffer-pool slot — a liveness tag plus the
message content held in the slot (§4.1 Buffer Pool). -/
structure BufSlot where
  state : BufState
  msg : Message
deriving DecidableEq, Repr

/-- Modelled from the spec: an item delivered into a pipe's FIFO — either a
by-value copy (copy path of `TransmitMsg`, §4.5 step 5 "copied into a fresh
pool buffer", the fresh buffer abstracted as the value) or a shared
reference to a pool slot (zero-copy path, §4.5 "a shared reference to the
caller-supplied pool buffer").  Two `shared` items with the same index are
the same underlying storage; a `copy` item never is. -/
inductive QItem where
  | copy (msg : Message)
  | shared (idx : Nat)
deriving DecidableEq, Repr

/-- Modelled from the spec: a pipe — identifier, configured maximum depth,
and the bounded FIFO of delivered items (§3 "Pipe", §4.3). -/
structure Pipe where
  pid : Nat
  depth : Nat
  queue : List QItem
deriving DecidableEq, Repr

/-- Modelled from the spec: a route/subscription
`(MessageId, PipeId) → per-route MsgLimit` (§3 "Route"); QoS is a delivery
hint with no modelled effect (§9 open question) and is omitted. -/
structure Route where
  msgId : Nat
  pipeId : Nat
  msgLimit : Nat
deriving DecidableEq, Repr

/-- Modelled from the spec: the process-wide bus state — configuration
constants fixed at start-up (§6 "configuration limits ... are compile-time/
startup constants"), the routing table, the pipes, the buffer pool, the
per-id sequence counters used to auto-stamp telemetry (§4.5 step 3), and
the diagnostic drop counter (§4.5 step 5 "diagnostic counter increment"). -/
structure SBState where
  maxSize : Nat
  msgIdLimit : Nat
  routes : List Route
  pipes : List Pipe
  pool : List BufSlot
  seqCnt : List (Nat × Nat)
  msgLimErr : Nat
deriving DecidableEq, Repr

/-- Modelled from the spec: the error taxonomy of the engine (§4.5
"Error taxonomy for this component"); `success` is the non-error outcome. -/
inductive SBResult where
  | success
  | badArgument
  | msgTooBig
  | bufferInvalid
  | timeOut
deriving DecidableEq, Repr

/-- Modelled from the spec: the sentinel timeout value meaning "block
indefinitely" (§4.3 Dequeue contract). -/
def PEND_FOREVER : Int := -1

/-- Look up the last-stamped sequence count for a message id (0 baseline). -/
def lookupSeq : List (Nat × Nat) → Nat → Nat
  | [], _ => 0
  | (k, v) :: t, id => if k = id then v else lookupSeq t id

/-- Store a sequence count for a message id. -/
def setSeq : List (Nat × Nat) → Nat → Nat → List (Nat × Nat)
  | [], id, v => [(id, v)]
  | (k, w) :: t, id, v =>
      if k = id then (id, v) :: t else (k, w) :: setSeq t id v

/-- Read pool slot `i` (a nonexistent slot reads as a free dummy slot,
which every operation rejects). -/
def getSlot (pool : List BufSlot) (i : Nat) : BufSlot :=
  pool.getD i ⟨.free, dummyMsg⟩

/-- Overwrite pool slot `i` (no effect out of range). -/
def setSlot : List BufSlot → Nat → BufSlot → List BufSlot
  | [], _, _ => []
  | _ :: t, 0, s => s :: t
  | h :: t, n + 1, s => h :: setSlot t n s

/-- The message a queued item denotes: a copy carries it, a shared
reference reads it from the pool slot. -/
def qitemMsg (pool : List BufSlot) : QItem → Message
  | .copy m => m
  | .shared i => (getSlot pool i).msg

/-- Modelled from the spec: the count of outstanding, undelivered instances
of one message id sitting in one pipe's queue (§3 "MsgLimit bounds how many
outstanding, undelivered instances of that specific id may sit in that pipe
concurrently"). -/
def idCount (pool : List BufSlot) (q : List QItem) (id : Nat) : Nat :=
  (q.filter (fun it => (qitemMsg pool it).msgId = id)).length

/-- Find a pipe by its identifier. -/
def findPipe (ps : List Pipe) (pid : Nat) : Option Pipe :=
  ps.find? (fun p => p.pid == pid)

/-- Apply an update to the pipe with the given identifier. -/
def updatePipe (ps : List Pipe) (pid : Nat) (f : Pipe → Pipe) : List Pipe :=
  ps.map (fun p => if p.pid == pid then f p else p)

/-- Modelled from the spec: index of the first free pool slot, if any
(§4.1 "reserves one free slot"). -/
def firstFree : List BufSlot → Option Nat
  | [] => none
  | s :: t => if s.state = .free then some 0 else (firstFree t).map (· + 1)

/-- Modelled from the spec: §4.5 step 3 — if `incrementSequence` and the
message's type is telemetry, stamp the header with the next sequence value
for that id and remember it; commands are never auto-stamped. -/
def stampSeq (st : SBState) (m : Message) (inc : Bool) : Message × SBState :=
  if inc = true ∧ m.mtype = .telemetry then
    let n := lookupSeq st.seqCnt m.msgId + 1
    ({ m with seqCount := n }, { st with seqCnt := setSeq st.seqCnt m.msgId n })
  else (m, st)

/-- Modelled from the spec: §4.5 step 5 for one destination on the copy
path — enqueue a copy of the message unless the pipe is at depth limit or
the per-route MsgLimit for this id in this pipe is already saturated, in
which case the delivery to that one pipe is dropped with a diagnostic
counter increment. -/
def deliverCopy (st : SBState) (r : Route) (m : Message) : SBState :=
  match findPipe st.pipes r.pipeId with
  | none => { st with msgLimErr := st.msgLimErr + 1 }
  | some p =>
      if p.queue.length < p.depth ∧ idCount st.pool p.queue m.msgId < r.msgLimit then
        { st with
          pipes := updatePipe st.pipes r.pipeId
            (fun q => { q with queue := q.queue ++ [.copy m] }) }
      else
        { st with msgLimErr := st.msgLimErr + 1 }

/-- Fan-out of a copy-path delivery over the subscriber list (§4.5 step 5:
success/drop decided independently per pipe). -/
def fanoutCopy (st : SBState) (rs : List Route) (m : Message) : SBState :=
  match rs with
  | [] => st
  | r :: t => fanoutCopy (deliverCopy st r m) t m

/-- Modelled from the spec: §4.5 step 5 for one destination on the
zero-copy path — enqueue a shared reference to pool slot `i` under the same
depth and MsgLimit conditions; returns whether the delivery happened. -/
def deliverShared (st : SBState) (r : Route) (i : Nat) (id : Nat) :
    SBState × Bool :=
  match findPipe st.pipes r.pipeId with
  | none => ({ st with msgLimErr := st.msgLimErr + 1 }, false)
  | some p =>
      if p.queue.length < p.depth ∧ idCount st.pool p.queue id < r.msgLimit then
        ({ st with
           pipes := updatePipe st.pipes r.pipeId
             (fun q => { q with queue := q.queue ++ [.shared i] }) }, true)
      else
        ({ st with msgLimErr := st.msgLimErr + 1 }, false)

/-- Fan-out of a zero-copy delivery over the subscriber list, counting the
successful deliveries (the buffer's reference count, §4.1 "shared,
refcounted ownership distributed across N destination queues"). -/
def fanoutShared (st : SBState) (rs : List Route) (i : Nat) (id : Nat)
    (n : Nat) : SBState × Nat :=
  match rs with
  | [] => (st, n)
  | r :: t =>
      let out := deliverShared st r i id
      fanoutShared out.1 t i id (if out.2 then n + 1 else n)

/-- Modelled from the spec: `CFE_SB_TransmitMsg` (§4.5 `TransmitMsg`):
reject a NULL message (`none`) with `BadArgument`; reject an out-of-range
message id with `BadArgument`; reject a total size exceeding the maximum
supported message size with `MsgTooBig`; auto-stamp telemetry sequence
counts when requested; fan the message out to every subscriber of its id,
dropping per-destination on depth/MsgLimit saturation; return success once
all subscriber attempts have been processed (an empty subscriber set is not
an error). -/
def CFE_SB_TransmitMsg (st : SBState) (msg : Option Message) (inc : Bool) :
    SBResult × SBState :=
  match msg with
  | none => (.badArgument, st)
  | some m =>
      if m.msgId < st.msgIdLimit then
        if m.size ≤ st.maxSize then
          let ms := stampSeq st m inc
          (.success,
            fanoutCopy ms.2 (ms.2.routes.filter (fun r => r.msgId == m.msgId)) ms.1)
        else (.msgTooBig, st)
      else (.badArgument, st)

/-- Modelled from the spec: `CFE_SB_AllocateMessageBuffer` (§4.1, §4.5):
a request above the maximum supported message size fails; otherwise the
first free pool slot is reserved, exclusively owned by the caller, its
bytes uninitialized; exhaustion (no free slot) fails and never blocks. -/
def CFE_SB_AllocateMessageBuffer (st : SBState) (size : Nat) :
    Option Nat × SBState :=
  if size ≤ st.maxSize then
    match firstFree st.pool with
    | none => (none, st)
    | some i => (some i, { st with pool := setSlot st.pool i ⟨.allocated, dummyMsg⟩ })
  else (none, st)

/-- Modelled from the spec: `CFE_SB_ReleaseMessageBuffer` (§4.1 `Release`):
a NULL buffer (`none`) is `BadArgument`; a caller-owned (allocated) slot
returns to free; an already-released, already-consumed or unrecognized
buffer fails with `BufferInvalid` rather than corrupting state. -/
def CFE_SB_ReleaseMessageBuffer (st : SBState) (buf : Option Nat) :
    SBResult × SBState :=
  match buf with
  | none => (.badArgument, st)
  | some i =>
      if i < st.pool.length ∧ (getSlot st.pool i).state = .allocated then
        (.success, { st with pool := setSlot st.pool i ⟨.free, (getSlot st.pool i).msg⟩ })
      else (.bufferInvalid, st)

/-- Write a message into a caller-owned pool buffer (models `CFE_MSG_Init`
plus payload stores into a zero-copy buffer before transmission). -/
def setBufferMsg (st : SBState) (i : Nat) (m : Message) : SBState :=
  { st with pool := setSlot st.pool i ⟨(getSlot st.pool i).state, m⟩ }

/-- Modelled from the spec: `CFE_SB_TransmitBuffer` (§4.5 `TransmitBuffer`):
same validation and routing as `TransmitMsg`, but the input is a previously
pool-allocated, exclusively-owned buffer; a buffer already released or never
allocated is rejected with `BufferInvalid`; ownership transfers into the
routing fan-out, the slot becoming shared/refcounted across the destination
queues (or free again when no subscriber took a reference). -/
def CFE_SB_TransmitBuffer (st : SBState) (buf : Option Nat) (inc : Bool) :
    SBResult × SBState :=
  match buf with
  | none => (.badArgument, st)
  | some i =>
      if i < st.pool.length ∧ (getSlot st.pool i).state = .allocated then
        let m := (getSlot st.pool i).msg
        if m.msgId < st.msgIdLimit then
          if m.size ≤ st.maxSize then
            let ms := stampSeq st m inc
            let st3 : SBState := { ms.2 with pool := setSlot ms.2.pool i ⟨.allocated, ms.1⟩ }
            let out := fanoutShared st3
              (st3.routes.filter (fun r => r.msgId == m.msgId)) i m.msgId 0
            (.success,
              { out.1 with
                pool := setSlot out.1.pool i
                  ⟨if out.2 = 0 then .free else .queued out.2, ms.1⟩ })
          else (.msgTooBig, st)
        else (.badArgument, st)
      else (.bufferInvalid, st)

/-- Outcome of a receive call: the result code, the delivered item (if
any), the modelled wall-clock wait in milliseconds, and the new state. -/
structure RecvOut where
  result : SBResult
  buf : Option QItem
  elapsed : Nat
  state : SBState
deriving DecidableEq, Repr

/-- Modelled from the spec: `CFE_SB_ReceiveBuffer` (§4.3 `Dequeue`, §4.5
`ReceiveBuffer`): a negative timeout that is not the `PEND_FOREVER`
sentinel is a caller error (`BadArgument`); an invalid pipe handle is
`BadArgument`; on an empty pipe `timeoutMs = 0` polls (immediate
`Timeout`, zero elapsed) and a positive value blocks up to that duration
before `Timeout` (the model is sequential, so no message arrives during the
wait and the full timeout elapses; the `PEND_FOREVER` wait on an empty pipe
never returns, abstracted here with elapsed 0); otherwise the head of the
FIFO is dequeued and ownership of a shared buffer transfers toward the
caller (last reference drained makes the slot caller-owned, §4.1). -/
def CFE_SB_ReceiveBuffer (st : SBState) (pipeId : Nat) (timeout : Int) :
    RecvOut :=
  if timeout < 0 ∧ timeout ≠ PEND_FOREVER then ⟨.badArgument, none, 0, st⟩
  else
    match findPipe st.pipes pipeId with
    | none => ⟨.badArgument, none, 0, st⟩
    | some p =>
        match p.queue with
        | [] => ⟨.timeOut, none, timeout.toNat, st⟩
        | it :: _ =>
            let st2 : SBState :=
              { st with
                pipes := updatePipe st.pipes pipeId
                  (fun q => { q with queue := q.queue.tail }) }
            let st3 : SBState :=
              match it with
              | .copy _ => st2
              | .shared i =>
                  match (getSlot st2.pool i).state with
                  | .queued n =>
                      if n ≤ 1 then
                        { st2 with pool := setSlot st2.pool i ⟨.allocated, (getSlot st2.pool i).msg⟩ }
                      else
                        { st2 with pool := setSlot st2.pool i ⟨.queued (n - 1), (getSlot st2.pool i).msg⟩ }
                  | _ => st2
            ⟨.success, some it, 0, st3⟩

/-- Transmit a list of messages in order via the copy path, collecting the
per-call results and the final state. -/
def transmitList (st : SBState) (ms : List Message) (inc : Bool) :
    List SBResult × SBState :=
  match ms with
  | [] => ([], st)
  | m :: t =>
      let out := CFE_SB_TransmitMsg st (some m) inc
      let rest := transmitList out.2 t inc
      (out.1 :: rest.1, rest.2)

/-- Receive `n` times in a row from one pipe, collecting the per-call
results and delivered items and the final state. -/
def receiveList (st : SBState) (pipeId : Nat) (timeout : Int) (n : Nat) :
    List (SBResult × Option QItem) × SBState :=
  match n with
  | 0 => ([], st)
  | k + 1 =>
      let out := CFE_SB_ReceiveBuffer st pipeId timeout
      let rest := receiveList out.state pipeId timeout k
      ((out.result, out.buf) :: rest.1, rest.2)

/-- The telemetry auto-stamp image of a message list: the `i`-th element
is stamped with sequence count `c + i + 1` (§4.5 step 3 iterated). -/
def stampedList (ms : List Message) (c : Nat) : List Message :=
  match ms with
  | [] => []
  | m :: t => { m with seqCount := c + 1 } :: stampedList t (c + 1)

/-- The canonical single-subscriber configuration of the test procedure
(`sb_sendrecv_test.c`): one route binding message id `id` to pipe `p` with
per-route limit `N`, one pipe of depth `D` currently holding `q`, an empty
pool (the copy path does not read it), sequence counters `c` and drop
counter `e`. -/
def oneRouteState (mx il id p N D : Nat) (q : List QItem)
    (c : List (Nat × Nat)) (e : Nat) : SBState :=
  ⟨mx, il, [⟨id, p, N⟩], [⟨p, D, q⟩], [], c, e⟩

/-- A message of id `id` that passes transmit validation in a state with
maximum size `mx` and id range `il`. -/
def goodMsg (mx il id : Nat) (m : Message) : Prop :=
  m.msgId = id ∧ id < il ∧ m.size ≤ mx

instance (mx il id : Nat) (m : Message) : Decidable (goodMsg mx il id m) := by
  unfold goodMsg; infer_instance

/-! ## Basic lemmas about the pool primitives -/

theorem setSlot_length (pool : List BufSlot) (i : Nat) (s : BufSlot) :
    (setSlot pool i s).length = pool.length := by
  induction pool generalizing i with
  | nil => rfl
  | cons hd t ih =>
      cases i with
      | zero => rfl
      | succ n => simp [setSlot, ih]

theorem getSlot_setSlot_self (pool : List BufSlot) (i : Nat) (s : BufSlot)
    (h : i < pool.length) : getSlot (setSlot pool i s) i = s := by
  induction pool generalizing i with
  | nil => simp at h
  | cons hd t ih =>
      cases i with
      | zero => rfl
      | succ n =>
          simp only [setSlot, getSlot, List.getD_cons_succ]
          exact ih n (by simpa using h)

theorem firstFree_spec (pool : List BufSlot) (i : Nat)
    (h : firstFree pool = some i) :
    i < pool.length ∧ (getSlot pool i).state = .free := by
  induction pool generalizing i with
  | nil => simp [firstFree] at h
  | cons hd t ih =>
      by_cases hf : hd.state = .free
      · simp only [firstFree, if_pos hf, Option.some.injEq] at h
        subst h
        exact ⟨Nat.succ_pos _, by simpa [getSlot] using hf⟩
      · simp only [firstFree, if_neg hf, Option.map_eq_some'] at h
        obtain ⟨j, hj, rfl⟩ := h
        obtain ⟨hlt, hfree⟩ := ih j hj
        exact ⟨by simpa using hlt, by simpa [getSlot] using hfree⟩

/-! ## Basic lemmas about sequence stamping -/

theorem lookupSeq_setSeq (l : List (Nat × Nat)) (id v : Nat) :
    lookupSeq (setSeq l id v) id = v := by
  induction l with
  | nil => simp [setSeq, lookupSeq]
  | cons kv t ih =>
      by_cases hk : kv.1 = id
      · simp [setSeq, hk, lookupSeq]
      · simp [setSeq, hk, lookupSeq, ih]

theorem stampSeq_noStamp (st : SBState) (m : Message) (inc : Bool)
    (h : ¬(inc = true ∧ m.mtype = .telemetry)) : stampSeq st m inc = (m, st) := by
  simp [stampSeq, h]

theorem stampSeq_tlm (st : SBState) (m : Message) (ht : m.mtype = .telemetry) :
    stampSeq st m true =
      ({ m with seqCount := lookupSeq st.seqCnt m.msgId + 1 },
       { st with seqCnt := setSeq st.seqCnt m.msgId (lookupSeq st.seqCnt m.msgId + 1) }) := by
  simp [stampSeq, ht]

/-! ## Copy-path delivery in the single-subscriber configuration -/

theorem idCount_copies (pool : List BufSlot) (qs : List Message) (id : Nat)
    (h : ∀ m ∈ qs, m.msgId = id) :
    idCount pool (qs.map .copy) id = qs.length := by
  induction qs with
  | nil => rfl
  | cons m t ih =>
      have hm : m.msgId = id := h m (List.mem_cons_self m t)
      have ht : ∀ x ∈ t, x.msgId = id := fun x hx => h x (List.mem_cons_of_mem m hx)
      simp [idCount, qitemMsg, hm, List.filter] at ih ⊢
      exact ih ht

theorem transmitMsg_oneRoute_noStamp (mx il id p N D : Nat) (q : List QItem)
    (c : List (Nat × Nat)) (e : Nat) (m : Message) (inc : Bool)
    (hstamp : ¬(inc = true ∧ m.mtype = .telemetry))
    (hm : m.msgId = id) (h1 : id < il) (h2 : m.size ≤ mx) :
    CFE_SB_TransmitMsg (oneRouteState mx il id p N D q c e) (some m) inc =
      (.success,
        if q.length < D ∧ idCount [] q id < N then
          oneRouteState mx il id p N D (q ++ [.copy m]) c e
        else oneRouteState mx il id p N D q c (e + 1)) := by
  subst hm
  simp only [CFE_SB_TransmitMsg, oneRouteState, if_pos h1, if_pos h2,
    stampSeq_noStamp _ _ _ hstamp]
  by_cases hcond : q.length < D ∧ idCount [] q m.msgId < N
  · simp [fanoutCopy, deliverCopy, findPipe, updatePipe, hcond]
  · simp [fanoutCopy, deliverCopy, findPipe, updatePipe, hcond]

theorem transmitMsg_oneRoute_tlm (mx il id p N D : Nat) (q : List QItem)
    (c : List (Nat × Nat)) (e : Nat) (m : Message) (ht : m.mtype = .telemetry)
    (hm : m.msgId = id) (h1 : id < il) (h2 : m.size ≤ mx) :
    CFE_SB_TransmitMsg (oneRouteState mx il id p N D q c e) (some m) true =
      (.success,
        if q.length < D ∧ idCount [] q id < N then
          oneRouteState mx il id p N D (q ++ [.copy { m with seqCount := lookupSeq c id + 1 }])
            (setSeq c id (lookupSeq c id + 1)) e
        else
          oneRouteState mx il id p N D q (setSeq c id (lookupSeq c id + 1)) (e + 1)) := by
  subst hm
  simp only [CFE_SB_TransmitMsg, oneRouteState, if_pos h1, if_pos h2,
    stampSeq_tlm _ _ ht]
  by_cases hcond : q.length < D ∧ idCount [] q m.msgId < N
  · simp [fanoutCopy, deliverCopy, findPipe, updatePipe, hcond]
  · simp [fanoutCopy, deliverCopy, findPipe, updatePipe, hcond]

theorem transmitList_false (mx il id p N D : Nat) (hND : N ≤ D)
    (ms : List Message) (hms : ∀ m ∈ ms, goodMsg mx il id m)
    (qs : List Message) (hqs : ∀ m ∈ qs, m.msgId = id) (hlen : qs.length ≤ N)
    (c : List (Nat × Nat)) (e : Nat) :
    ∃ e2, transmitList (oneRouteState mx il id p N D (qs.map .copy) c e) ms false =
      (ms.map (fun _ => SBResult.success),
       oneRouteState mx il id p N D (((qs ++ ms).take N).map .copy) c e2) := by
  induction ms generalizing qs e with
  | nil =>
      refine ⟨e, ?_⟩
      simp [transmitList, List.take_of_length_le hlen]
  | cons m t ih =>
      obtain ⟨hm, h1, h2⟩ := hms m (List.mem_cons_self m t)
      have hms' : ∀ x ∈ t, goodMsg mx il id x := fun x hx => hms x (List.mem_cons_of_mem m hx)
      have hstep := transmitMsg_oneRoute_noStamp mx il id p N D (qs.map .copy) c e m false
        (by simp) hm h1 h2
      rw [idCount_copies [] qs id hqs] at hstep
      by_cases hq : qs.length < N
      · have hcond : (qs.map QItem.copy).length < D ∧ qs.length < N := by
          simp only [List.length_map]
          exact ⟨Nat.lt_of_lt_of_le hq hND, hq⟩
        rw [if_pos hcond] at hstep
        have hqs' : ∀ x ∈ qs ++ [m], x.msgId = id := by
          intro x hx
          rcases List.mem_append.mp hx with h | h
          · exact hqs x h
          · simp only [List.mem_singleton] at h
            subst h; exact hm
        obtain ⟨e2, heq⟩ := ih hms' (qs ++ [m]) hqs' (by simp; omega) e
        refine ⟨e2, ?_⟩
        rw [transmitList, hstep]
        simp only [List.map_append, List.map_cons, List.map_nil] at heq
        rw [heq]
        simp
      · have heqN : qs.length = N := Nat.le_antisymm hlen (Nat.le_of_not_lt hq)
        have hcond : ¬((qs.map QItem.copy).length < D ∧ qs.length < N) := by
          intro hc; exact hq hc.2
        rw [if_neg hcond] at hstep
        obtain ⟨e2, heq⟩ := ih hms' qs hqs hlen (e + 1)
        refine ⟨e2, ?_⟩
        rw [transmitList, hstep, heq]
        have htake : ∀ l : List Message, (qs ++ l).take N = qs := by
          intro l
          rw [List.take_append_eq_append_take, List.take_of_length_le (le_of_eq heqN),
            heqN]
          simp
        rw [htake, htake]
        simp

theorem transmitList_tlm (mx il id p N D : Nat) (hND : N ≤ D)
    (ms : List Message) (hms : ∀ m ∈ ms, goodMsg mx il id m ∧ m.mtype = .telemetry)
    (qs : List Message) (hqs : ∀ m ∈ qs, m.msgId = id) (hlen : qs.length ≤ N)
    (c : List (Nat × Nat)) (e : Nat) :
    ∃ e2 c2, transmitList (oneRouteState mx il id p N D (qs.map .copy) c e) ms true =
      (ms.map (fun _ => SBResult.success),
       oneRouteState mx il id p N D (((qs ++ stampedList ms (lookupSeq c id)).take N).map .copy) c2 e2) := by
  induction ms generalizing qs c e with
  | nil =>
      refine ⟨e, c, ?_⟩
      simp [transmitList, stampedList, List.take_of_length_le hlen]
  | cons m t ih =>
      obtain ⟨⟨hm, h1, h2⟩, htl⟩ := hms m (List.mem_cons_self m t)
      have hms' : ∀ x ∈ t, goodMsg mx il id x ∧ x.mtype = .telemetry :=
        fun x hx => hms x (List.mem_cons_of_mem m hx)
      have hstep := transmitMsg_oneRoute_tlm mx il id p N D (qs.map .copy) c e m htl hm h1 h2
      rw [idCount_copies [] qs id hqs] at hstep
      have hm2 : ({ m with seqCount := lookupSeq c id + 1 } : Message).msgId = id := hm
      have hlook : lookupSeq (setSeq c id (lookupSeq c id + 1)) id = lookupSeq c id + 1 :=
        lookupSeq_setSeq c id _
      by_cases hq : qs.length < N
      · have hcond : (qs.map QItem.copy).length < D ∧ qs.length < N := by
          simp only [List.length_map]
          exact ⟨Nat.lt_of_lt_of_le hq hND, hq⟩
        rw [if_pos hcond] at hstep
        have hqs' : ∀ x ∈ qs ++ [{ m with seqCount := lookupSeq c id + 1 }], x.msgId = id := by
          intro x hx
          rcases List.mem_append.mp hx with h | h
          · exact hqs x h
          · simp only [List.mem_singleton] at h
            subst h; exact hm2
        obtain ⟨e2, c2, heq⟩ := ih hms' (qs ++ [{ m with seqCount := lookupSeq c id + 1 }])
          hqs' (by simp; omega) (setSeq c id (lookupSeq c id + 1)) e
        refine ⟨e2, c2, ?_⟩
        rw [transmitList, hstep]
        simp only [List.map_append, List.map_cons, List.map_nil] at heq
        rw [heq, hlook]
        simp [stampedList]
      · have heqN : qs.length = N := Nat.le_antisymm hlen (Nat.le_of_not_lt hq)
        have hcond : ¬((qs.map QItem.copy).length < D ∧ qs.length < N) := by
          intro hc; exact hq hc.2
        rw [if_neg hcond] at hstep
        obtain ⟨e2, c2, heq⟩ := ih hms' qs hqs hlen (setSeq c id (lookupSeq c id + 1)) (e + 1)
        refine ⟨e2, c2, ?_⟩
        rw [transmitList, hstep, heq, hlook]
        have htake : ∀ l : List Message, (qs ++ l).take N = qs := by
          intro l
          rw [List.take_append_eq_append_take, List.take_of_length_le (le_of_eq heqN),
            heqN]
          simp
        rw [htake, htake]
        simp

/-! ## Receiving from the single-subscriber configuration -/

theorem receive_oneRoute_cons (mx il id p N D : Nat) (m : Message)
    (rest : List QItem) (c : List (Nat × Nat)) (e : Nat) (t : Int) (ht : 0 ≤ t) :
    CFE_SB_ReceiveBuffer (oneRouteState mx il id p N D (QItem.copy m :: rest) c e) p t =
      ⟨.success, some (.copy m), 0, oneRouteState mx il id p N D rest c e⟩ := by
  have hnot : ¬(t < 0 ∧ t ≠ PEND_FOREVER) := by intro hc; omega
  simp [CFE_SB_ReceiveBuffer, hnot, oneRouteState, findPipe, updatePipe]

theorem receive_oneRoute_empty (mx il id p N D : Nat)
    (c : List (Nat × Nat)) (e : Nat) (t : Int) (ht : 0 ≤ t) :
    CFE_SB_ReceiveBuffer (oneRouteState mx il id p N D [] c e) p t =
      ⟨.timeOut, none, t.toNat, oneRouteState mx il id p N D [] c e⟩ := by
  have hnot : ¬(t < 0 ∧ t ≠ PEND_FOREVER) := by intro hc; omega
  simp [CFE_SB_ReceiveBuffer, hnot, oneRouteState, findPipe]

theorem receiveList_copies (mx il id p N D : Nat) (qs : List Message)
    (c : List (Nat × Nat)) (e : Nat) (t : Int) (ht : 0 ≤ t) :
    receiveList (oneRouteState mx il id p N D (qs.map .copy) c e) p t qs.length =
      (qs.map (fun m => (SBResult.success, some (QItem.copy m))),
       oneRouteState mx il id p N D [] c e) := by
  induction qs with
  | nil => simp [receiveList]
  | cons m rest ih =>
      rw [List.map_cons, List.length_cons, receiveList,
        receive_oneRoute_cons mx il id p N D m (rest.map .copy) c e t ht]
      simp [ih]

theorem stampedList_length (ms : List Message) (c0 : Nat) :
    (stampedList ms c0).length = ms.length := by
  induction ms generalizing c0 with
  | nil => rfl
  | cons m t ih => simp [stampedList, ih]

theorem stampedList_get (ms : List Message) (c0 i : Nat)
    (hi : i < (stampedList ms c0).length) :
    ((stampedList ms c0).get ⟨i, hi⟩).seqCount = c0 + 1 + i := by
  induction ms generalizing c0 i with
  | nil => simp [stampedList] at hi
  | cons m t ih =>
      cases i with
      | zero => simp [stampedList]
      | succ j =>
          have hj : j < (stampedList t (c0 + 1)).length := by
            simpa [stampedList] using hi
          have := ih (c0 + 1) j hj
          simp only [stampedList, List.get_cons_succ]
          rw [this]
          omega

/-! ## C1, C2, C6, C10 — delivery, limits, ordering, sequence counts -/

/-- Claim C1: For a pipe subscribed to a message id with per-route MsgLimit
`N` (depth at least `N` so the route limit is the binding one),
transmitting more than `N` instances of that id with no intervening
receive still returns success on every `TransmitMsg` call; subsequent
`ReceiveBuffer` calls on that pipe return exactly the `N` oldest instances
in arrival order, after which `ReceiveBuffer` reports `Timeout`. -/
theorem C1_msgLimit_saturation (mx il id p N D : Nat) (hND : N ≤ D)
    (ms : List Message) (hms : ∀ m ∈ ms, goodMsg mx il id m)
    (hlong : N < ms.length) (c : List (Nat × Nat)) :
    (transmitList (oneRouteState mx il id p N D [] c 0) ms false).1 =
      ms.map (fun _ => SBResult.success) ∧
    (receiveList (transmitList (oneRouteState mx il id p N D [] c 0) ms false).2 p 100 N).1 =
      (ms.take N).map (fun m => (SBResult.success, some (QItem.copy m))) ∧
    (CFE_SB_ReceiveBuffer
        (receiveList (transmitList (oneRouteState mx il id p N D [] c 0) ms false).2 p 100 N).2
        p 100).result = .timeOut := by
  obtain ⟨e2, heq⟩ := transmitList_false mx il id p N D hND ms hms []
    (by intro x hx; simp at hx) (Nat.zero_le N) c 0
  simp only [List.map_nil, List.nil_append] at heq
  have hlenN : (ms.take N).length = N := by
    simp [List.length_take]
    omega
  refine ⟨by rw [heq], ?_, ?_⟩
  · rw [heq]
    have := receiveList_copies mx il id p N D (ms.take N) c e2 100 (by omega)
    rw [hlenN] at this
    rw [this]
  · rw [heq]
    have := receiveList_copies mx il id p N D (ms.take N) c e2 100 (by omega)
    rw [hlenN] at this
    rw [this, receive_oneRoute_empty mx il id p N D c e2 100 (by omega)]

/-- Claim C2: Telemetry transmitted with `incrementSequence = true` is
observed at the receiver with strictly increasing sequence counts — the
`i`-th received message of the stream carries count `baseline + 1 + i`,
each the successor of the previous — while a command transmitted with
`incrementSequence = true` is observed with the caller-supplied sequence
count unchanged (the delivered item is the caller's message itself). -/
theorem C2_seq_auto_increment (mx il id p N D : Nat) (hN : 0 < N) (hND : N ≤ D)
    (ms : List Message) (hms : ∀ m ∈ ms, goodMsg mx il id m ∧ m.mtype = .telemetry)
    (hlen : ms.length ≤ N) (c : List (Nat × Nat)) :
    (transmitList (oneRouteState mx il id p N D [] c 0) ms true).1 =
      ms.map (fun _ => SBResult.success) ∧
    (receiveList (transmitList (oneRouteState mx il id p N D [] c 0) ms true).2 p 100 ms.length).1 =
      (stampedList ms (lookupSeq c id)).map (fun m => (SBResult.success, some (QItem.copy m))) ∧
    (∀ i (hi : i < (stampedList ms (lookupSeq c id)).length),
      ((stampedList ms (lookupSeq c id)).get ⟨i, hi⟩).seqCount = lookupSeq c id + 1 + i) ∧
    (∀ mc : Message, goodMsg mx il id mc → mc.mtype = .command →
      (CFE_SB_ReceiveBuffer
          (CFE_SB_TransmitMsg (oneRouteState mx il id p N D [] c 0) (some mc) true).2 p 100).buf =
        some (QItem.copy mc)) := by
  obtain ⟨e2, c2, heq⟩ := transmitList_tlm mx il id p N D hND ms hms []
    (by intro x hx; simp at hx) (Nat.zero_le N) c 0
  simp only [List.map_nil, List.nil_append] at heq
  have hslen : (stampedList ms (lookupSeq c id)).length = ms.length :=
    stampedList_length ms (lookupSeq c id)
  have htake : (stampedList ms (lookupSeq c id)).take N = stampedList ms (lookupSeq c id) :=
    List.take_of_length_le (by omega)
  rw [htake] at heq
  refine ⟨by rw [heq], ?_, fun i hi => stampedList_get ms (lookupSeq c id) i hi, ?_⟩
  · rw [heq]
    have := receiveList_copies mx il id p N D (stampedList ms (lookupSeq c id)) c2 e2 100
      (by omega)
    rw [hslen] at this
    rw [this]
  · intro mc ⟨hmc, h1, h2⟩ hcmd
    have hstep := transmitMsg_oneRoute_noStamp mx il id p N D [] c 0 mc true
      (by simp [hcmd]) hmc h1 h2
    have hcond : ([] : List QItem).length < D ∧ idCount [] [] id < N := by
      constructor
      · simpa using Nat.lt_of_lt_of_le hN hND
      · simpa [idCount] using hN
    rw [if_pos hcond] at hstep
    rw [hstep]
    simp only [List.nil_append]
    rw [receive_oneRoute_cons mx il id p N D mc [] c 0 100 (by omega)]

/-- Claim C6: Messages delivered to a given pipe are dequeued in strict FIFO
order: for a sequence of enqueues that all succeed (here: within both the
route MsgLimit and the pipe depth), `ReceiveBuffer` returns the messages
in exactly their transmission order with no reordering and no duplication,
and the pipe is empty afterwards (`Timeout` on the next receive). -/
theorem C6_fifo_order (mx il id p N D : Nat) (hND : N ≤ D)
    (ms : List Message) (hms : ∀ m ∈ ms, goodMsg mx il id m)
    (hlen : ms.length ≤ N) (c : List (Nat × Nat)) :
    (transmitList (oneRouteState mx il id p N D [] c 0) ms false).1 =
      ms.map (fun _ => SBResult.success) ∧
    (receiveList (transmitList (oneRouteState mx il id p N D [] c 0) ms false).2 p 100
        ms.length).1 =
      ms.map (fun m => (SBResult.success, some (QItem.copy m))) ∧
    (CFE_SB_ReceiveBuffer
        (receiveList (transmitList (oneRouteState mx il id p N D [] c 0) ms false).2 p 100
          ms.length).2 p 100).result = .timeOut := by
  obtain ⟨e2, heq⟩ := transmitList_false mx il id p N D hND ms hms []
    (by intro x hx; simp at hx) (Nat.zero_le N) c 0
  simp only [List.map_nil, List.nil_append] at heq
  rw [List.take_of_length_le hlen] at heq
  have hrecv := receiveList_copies mx il id p N D ms c e2 100 (by omega)
  refine ⟨by rw [heq], by rw [heq, hrecv], ?_⟩
  rw [heq, hrecv, receive_oneRoute_empty mx il id p N D c e2 100 (by omega)]

/-- Claim C10: A telemetry message transmitted with
`incrementSequence = false` is delivered with the caller-supplied sequence
count unchanged — the receiver observes the caller's message itself — even
when auto-stamped telemetry of the same id was transmitted earlier (the
first received message carries the auto-stamped count, the second is
exactly the sender's). -/
theorem C10_manual_seq_preserved (mx il id p N D : Nat) (h2N : 2 ≤ N) (hND : N ≤ D)
    (m1 m2 : Message) (hm1 : goodMsg mx il id m1) (ht1 : m1.mtype = .telemetry)
    (hm2 : goodMsg mx il id m2) (_ht2 : m2.mtype = .telemetry)
    (c : List (Nat × Nat)) :
    (receiveList
        (CFE_SB_TransmitMsg
          (CFE_SB_TransmitMsg (oneRouteState mx il id p N D [] c 0) (some m1) true).2
          (some m2) false).2
        p 100 2).1 =
      [(SBResult.success, some (QItem.copy { m1 with seqCount := lookupSeq c id + 1 })),
       (SBResult.success, some (QItem.copy m2))] := by
  obtain ⟨hid1, h11, h12⟩ := hm1
  obtain ⟨hid2, h21, h22⟩ := hm2
  have hstep1 := transmitMsg_oneRoute_tlm mx il id p N D [] c 0 m1 ht1 hid1 h11 h12
  have hcond1 : ([] : List QItem).length < D ∧ idCount [] [] id < N := by
    refine ⟨?_, ?_⟩
    · simp only [List.length_nil]
      omega
    · simp only [idCount, List.filter_nil, List.length_nil]
      omega
  rw [if_pos hcond1] at hstep1
  rw [hstep1]
  simp only [List.nil_append]
  have hstep2 := transmitMsg_oneRoute_noStamp mx il id p N D
    [QItem.copy { m1 with seqCount := lookupSeq c id + 1 }]
    (setSeq c id (lookupSeq c id + 1)) 0 m2 false (by simp) hid2 h21 h22
  have hcount : idCount [] [QItem.copy { m1 with seqCount := lookupSeq c id + 1 }] id = 1 :=
    idCount_copies [] [{ m1 with seqCount := lookupSeq c id + 1 }] id
      (by intro x hx; simp at hx; subst hx; exact hid1)
  have hcond2 : ([QItem.copy { m1 with seqCount := lookupSeq c id + 1 }].length < D ∧
      idCount [] [QItem.copy { m1 with seqCount := lookupSeq c id + 1 }] id < N) := by
    rw [hcount]
    simp only [List.length_cons, List.length_nil]
    omega
  rw [if_pos hcond2] at hstep2
  rw [hstep2]
  have : ([QItem.copy { m1 with seqCount := lookupSeq c id + 1 }] ++ [QItem.copy m2]) =
      ([{ m1 with seqCount := lookupSeq c id + 1 }, m2].map QItem.copy) := by simp
  rw [this]
  have := receiveList_copies mx il id p N D [{ m1 with seqCount := lookupSeq c id + 1 }, m2]
    (setSeq c id (lookupSeq c id + 1)) 0 100 (by omega)
  simp only [List.length_cons, List.length_nil] at this
  rw [this]
  simp

/-! ## C3 — the zero-copy round trip -/

theorem stampSeq_split (st : SBState) (m : Message) (inc : Bool) :
    ∃ m2 c2, stampSeq st m inc = (m2, { st with seqCnt := c2 }) ∧
      m2.msgId = m.msgId ∧ m2.size = m.size := by
  unfold stampSeq
  split
  · exact ⟨_, _, rfl, rfl, rfl⟩
  · exact ⟨m, st.seqCnt, rfl, rfl, rfl⟩

theorem receive_shared_one (mx il id p N D : Nat) (pool2 : List BufSlot)
    (i : Nat) (m2 : Message)
    (hslot2 : getSlot pool2 i = ⟨.queued 1, m2⟩) (c2 : List (Nat × Nat)) (e : Nat) :
    CFE_SB_ReceiveBuffer
        ⟨mx, il, [⟨id, p, N⟩], [⟨p, D, [QItem.shared i]⟩], pool2, c2, e⟩ p 100 =
      ⟨.success, some (.shared i), 0,
        ⟨mx, il, [⟨id, p, N⟩], [⟨p, D, []⟩], setSlot pool2 i ⟨.allocated, m2⟩, c2, e⟩⟩ := by
  have hnot : ¬((100 : Int) < 0 ∧ (100 : Int) ≠ PEND_FOREVER) := by
    intro hc; omega
  simp [CFE_SB_ReceiveBuffer, hnot, findPipe, updatePipe, hslot2]

theorem transmitBuffer_receive_shared (mx il id p N D : Nat) (hN : 0 < N) (hND : N ≤ D)
    (pool : List BufSlot) (c : List (Nat × Nat)) (e : Nat)
    (i : Nat) (hi : i < pool.length) (m : Message)
    (hslot : getSlot pool i = ⟨.allocated, m⟩)
    (hm : m.msgId = id) (h1 : id < il) (h2 : m.size ≤ mx) (inc : Bool) :
    (CFE_SB_TransmitBuffer ⟨mx, il, [⟨id, p, N⟩], [⟨p, D, []⟩], pool, c, e⟩ (some i) inc).1 =
      .success ∧
    (CFE_SB_ReceiveBuffer
        (CFE_SB_TransmitBuffer ⟨mx, il, [⟨id, p, N⟩], [⟨p, D, []⟩], pool, c, e⟩ (some i) inc).2
        p 100).buf = some (QItem.shared i) := by
  subst hm
  have hD : 0 < D := Nat.lt_of_lt_of_le hN hND
  obtain ⟨m2, c2, hsplit, hm2, -⟩ :=
    stampSeq_split ⟨mx, il, [⟨m.msgId, p, N⟩], [⟨p, D, []⟩], pool, c, e⟩ m inc
  have hguard : i < pool.length ∧ (getSlot pool i).state = BufState.allocated :=
    ⟨hi, by rw [hslot]⟩
  have htb : CFE_SB_TransmitBuffer
      ⟨mx, il, [⟨m.msgId, p, N⟩], [⟨p, D, []⟩], pool, c, e⟩ (some i) inc =
      (.success,
        ⟨mx, il, [⟨m.msgId, p, N⟩], [⟨p, D, [QItem.shared i]⟩],
          setSlot (setSlot pool i ⟨.allocated, m2⟩) i ⟨.queued 1, m2⟩, c2, e⟩) := by
    simp only [CFE_SB_TransmitBuffer]
    rw [if_pos]
    · rw [hslot]
      simp only [if_pos h1, if_pos h2, hsplit]
      simp [fanoutShared, deliverShared, findPipe, updatePipe, idCount, hD, hN, hm2]
    · simpa using hguard
  rw [htb]
  refine ⟨rfl, ?_⟩
  have hslot2 : getSlot (setSlot (setSlot pool i ⟨.allocated, m2⟩) i ⟨.queued 1, m2⟩) i =
      ⟨.queued 1, m2⟩ := by
    apply getSlot_setSlot_self
    rw [setSlot_length]
    exact hi
  rw [receive_shared_one mx il m.msgId p N D _ i m2 hslot2 c2 e]

/-- Claim C3: Zero-copy round trip: a buffer obtained from
`AllocateMessageBuffer`, initialized with a subscribed message id and
passed to `TransmitBuffer`, is received by the subscriber as the *same*
underlying storage — `ReceiveBuffer` yields the shared reference to the
very pool slot the allocation produced, not a copy. -/
theorem C3_zero_copy_round_trip (mx il id p N D : Nat) (hN : 0 < N) (hND : N ≤ D)
    (pool : List BufSlot) (c : List (Nat × Nat)) (e : Nat) (sz : Nat) (i : Nat)
    (hi : (CFE_SB_AllocateMessageBuffer
            ⟨mx, il, [⟨id, p, N⟩], [⟨p, D, []⟩], pool, c, e⟩ sz).1 = some i)
    (m : Message) (hm : m.msgId = id) (h1 : id < il) (h2 : m.size ≤ mx) (inc : Bool) :
    (CFE_SB_TransmitBuffer
        (setBufferMsg
          (CFE_SB_AllocateMessageBuffer
            ⟨mx, il, [⟨id, p, N⟩], [⟨p, D, []⟩], pool, c, e⟩ sz).2 i m)
        (some i) inc).1 = .success ∧
    (CFE_SB_ReceiveBuffer
        (CFE_SB_TransmitBuffer
          (setBufferMsg
            (CFE_SB_AllocateMessageBuffer
              ⟨mx, il, [⟨id, p, N⟩], [⟨p, D, []⟩], pool, c, e⟩ sz).2 i m)
          (some i) inc).2
        p 100).buf = some (QItem.shared i) := by
  by_cases hsz : sz ≤ mx
  · rcases hff : firstFree pool with _ | j
    · simp [CFE_SB_AllocateMessageBuffer, hsz, hff] at hi
    · have hji : j = i := by
        simpa [CFE_SB_AllocateMessageBuffer, hsz, hff] using hi
      subst hji
      obtain ⟨hjlen, -⟩ := firstFree_spec pool j hff
      have hal : (CFE_SB_AllocateMessageBuffer
          ⟨mx, il, [⟨id, p, N⟩], [⟨p, D, []⟩], pool, c, e⟩ sz).2 =
          ⟨mx, il, [⟨id, p, N⟩], [⟨p, D, []⟩],
            setSlot pool j ⟨.allocated, dummyMsg⟩, c, e⟩ := by
        simp [CFE_SB_AllocateMessageBuffer, hsz, hff]
      rw [hal]
      have hset : setBufferMsg
          ⟨mx, il, [⟨id, p, N⟩], [⟨p, D, []⟩], setSlot pool j ⟨.allocated, dummyMsg⟩, c, e⟩ j m =
          ⟨mx, il, [⟨id, p, N⟩], [⟨p, D, []⟩],
            setSlot (setSlot pool j ⟨.allocated, dummyMsg⟩) j ⟨.allocated, m⟩, c, e⟩ := by
        simp [setBufferMsg, getSlot_setSlot_self _ _ _ hjlen]
      rw [hset]
      exact transmitBuffer_receive_shared mx il id p N D hN hND
        (setSlot (setSlot pool j ⟨.allocated, dummyMsg⟩) j ⟨.allocated, m⟩) c e j
        (by rw [setSlot_length, setSlot_length]; exact hjlen) m
        (getSlot_setSlot_self _ _ _ (by rw [setSlot_length]; exact hjlen))
        hm h1 h2 inc
  · simp [CFE_SB_AllocateMessageBuffer, hsz] at hi

/-! ## C4, C5, C7, C8, C9 — validation and buffer-protocol claims -/

/-- Claim C4: `ReleaseMessageBuffer` applied to a buffer that has already
been released fails with `BufferInvalid`, and `TransmitBuffer` applied to a
buffer that has already been released fails with `BufferInvalid`; in both
cases the state (in particular the pool and every pipe) is returned
unchanged — the buffer is not re-enqueued and the pool is not corrupted. -/
theorem C4_released_buffer_rejected (st : SBState) (i : Nat) (inc : Bool)
    (h : (CFE_SB_ReleaseMessageBuffer st (some i)).1 = .success) :
    CFE_SB_ReleaseMessageBuffer (CFE_SB_ReleaseMessageBuffer st (some i)).2 (some i) =
      (.bufferInvalid, (CFE_SB_ReleaseMessageBuffer st (some i)).2) ∧
    CFE_SB_TransmitBuffer (CFE_SB_ReleaseMessageBuffer st (some i)).2 (some i) inc =
      (.bufferInvalid, (CFE_SB_ReleaseMessageBuffer st (some i)).2) := by
  by_cases hg : i < st.pool.length ∧ (getSlot st.pool i).state = .allocated
  · have hst : (CFE_SB_ReleaseMessageBuffer st (some i)).2 =
        { st with pool := setSlot st.pool i ⟨.free, (getSlot st.pool i).msg⟩ } := by
      simp [CFE_SB_ReleaseMessageBuffer, hg]
    have hner : ¬(i < (setSlot st.pool i ⟨.free, (getSlot st.pool i).msg⟩).length ∧
        (getSlot (setSlot st.pool i ⟨.free, (getSlot st.pool i).msg⟩) i).state = BufState.allocated) := by
      rw [getSlot_setSlot_self _ _ _ hg.1]
      simp
    rw [hst]
    constructor
    · simp [CFE_SB_ReleaseMessageBuffer, hner]
    · simp [CFE_SB_TransmitBuffer, hner]
  · simp [CFE_SB_ReleaseMessageBuffer, hg] at h

/-- Claim C5: `TransmitMsg` called with a message whose total declared size
exceeds the configured maximum supported message size fails with
`MsgTooBig`, and the state is returned unchanged, so nothing is enqueued
into any subscriber pipe (all pipes' contents are unchanged). -/
theorem C5_msg_too_big (st : SBState) (m : Message) (inc : Bool)
    (hid : m.msgId < st.msgIdLimit) (hbig : st.maxSize < m.size) :
    CFE_SB_TransmitMsg st (some m) inc = (.msgTooBig, st) ∧
    (CFE_SB_TransmitMsg st (some m) inc).2.pipes = st.pipes := by
  have h : ¬ m.size ≤ st.maxSize := by omega
  constructor
  · simp [CFE_SB_TransmitMsg, hid, h]
  · simp [CFE_SB_TransmitMsg, hid, h]

/-- Claim C7: `ReceiveBuffer` timeout semantics: a negative timeout that is
not the `PEND_FOREVER` sentinel fails with `BadArgument` and nothing is
dequeued (state unchanged); on an empty pipe a positive timeout returns
`Timeout` only after the full duration has elapsed with no message
arriving (`elapsed = timeout`), and timeout `0` polls, returning `Timeout`
immediately (`elapsed = 0`). -/
theorem C7_receive_timeout_semantics (st : SBState) (pid : Nat) (t : Int) :
    (t < 0 ∧ t ≠ PEND_FOREVER →
      CFE_SB_ReceiveBuffer st pid t = ⟨.badArgument, none, 0, st⟩) ∧
    (∀ P : Pipe, findPipe st.pipes pid = some P → P.queue = [] → 0 < t →
      CFE_SB_ReceiveBuffer st pid t = ⟨.timeOut, none, t.toNat, st⟩) ∧
    (∀ P : Pipe, findPipe st.pipes pid = some P → P.queue = [] →
      CFE_SB_ReceiveBuffer st pid 0 = ⟨.timeOut, none, 0, st⟩) := by
  refine ⟨fun hneg => ?_, fun P hP hq hpos => ?_, fun P hP hq => ?_⟩
  · simp [CFE_SB_ReceiveBuffer, hneg]
  · have hnot : ¬(t < 0 ∧ t ≠ PEND_FOREVER) := by
      intro hc; omega
    simp [CFE_SB_ReceiveBuffer, hnot, hP, hq]
  · simp [CFE_SB_ReceiveBuffer, hP, hq, PEND_FOREVER]

/-- Claim C8: `TransmitMsg` rejects invalid input before any routing: a NULL
message fails with `BadArgument`, and a non-NULL message whose message id
is not in range fails with `BadArgument`; in both cases the state is
returned unchanged, so no delivery occurs. -/
theorem C8_transmit_rejects_invalid (st : SBState) (inc : Bool) :
    CFE_SB_TransmitMsg st none inc = (.badArgument, st) ∧
    (∀ m : Message, st.msgIdLimit ≤ m.msgId →
      CFE_SB_TransmitMsg st (some m) inc = (.badArgument, st)) := by
  refine ⟨rfl, fun m hm => ?_⟩
  have h : ¬ m.msgId < st.msgIdLimit := by omega
  simp [CFE_SB_TransmitMsg, h]

/-- Claim C9: `AllocateMessageBuffer` with a requested size strictly greater
than the maximum supported message size fails (no buffer is produced, the
state — in particular the pool — is unchanged), while a request at or
below the maximum with free capacity available yields the first free slot,
now in the `allocated` state, exclusively owned by the caller. -/
theorem C9_allocate_size_check (st : SBState) (sz : Nat) :
    (st.maxSize < sz → CFE_SB_AllocateMessageBuffer st sz = (none, st)) ∧
    (∀ i : Nat, sz ≤ st.maxSize → firstFree st.pool = some i →
      (CFE_SB_AllocateMessageBuffer st sz).1 = some i ∧
      (getSlot (CFE_SB_AllocateMessageBuffer st sz).2.pool i).state = .allocated) := by
  refine ⟨fun hbig => ?_, fun i hsz hff => ?_⟩
  · have h : ¬ sz ≤ st.maxSize := by omega
    simp [CFE_SB_AllocateMessageBuffer, h]
  · obtain ⟨hlt, -⟩ := firstFree_spec st.pool i hff
    constructor
    · simp [CFE_SB_AllocateMessageBuffer, hsz, hff]
    · simp [CFE_SB_AllocateMessageBuffer, hsz, hff, getSlot_setSlot_self _ _ _ hlt]

/-! ## Concrete witnesses

Each witness instantiates its claim's theorem at the configuration of
`sb_sendrecv_test.c`: pipes of depth 5, a route limit of 3 messages per
id, message ids well inside the valid range. -/

theorem C1_msgLimit_saturation_witness :
    (transmitList (oneRouteState 100 1000 1 10 3 5 [] [] 0)
        [⟨1, 12, .command, 11, 0⟩, ⟨1, 12, .command, 11, 1⟩,
         ⟨1, 12, .command, 11, 2⟩, ⟨1, 12, .command, 11, 3⟩] false).1 =
      ([⟨1, 12, .command, 11, 0⟩, ⟨1, 12, .command, 11, 1⟩,
        ⟨1, 12, .command, 11, 2⟩, ⟨1, 12, .command, 11, 3⟩] : List Message).map
        (fun _ => SBResult.success) ∧
    (receiveList (transmitList (oneRouteState 100 1000 1 10 3 5 [] [] 0)
        [⟨1, 12, .command, 11, 0⟩, ⟨1, 12, .command, 11, 1⟩,
         ⟨1, 12, .command, 11, 2⟩, ⟨1, 12, .command, 11, 3⟩] false).2 10 100 3).1 =
      (([⟨1, 12, .command, 11, 0⟩, ⟨1, 12, .command, 11, 1⟩,
         ⟨1, 12, .command, 11, 2⟩, ⟨1, 12, .command, 11, 3⟩] : List Message).take 3).map
        (fun m => (SBResult.success, some (QItem.copy m))) ∧
    (CFE_SB_ReceiveBuffer
        (receiveList (transmitList (oneRouteState 100 1000 1 10 3 5 [] [] 0)
          [⟨1, 12, .command, 11, 0⟩, ⟨1, 12, .command, 11, 1⟩,
           ⟨1, 12, .command, 11, 2⟩, ⟨1, 12, .command, 11, 3⟩] false).2 10 100 3).2
        10 100).result = .timeOut :=
  C1_msgLimit_saturation 100 1000 1 10 3 5 (by decide)
    [⟨1, 12, .command, 11, 0⟩, ⟨1, 12, .command, 11, 1⟩,
     ⟨1, 12, .command, 11, 2⟩, ⟨1, 12, .command, 11, 3⟩]
    (by decide) (by decide) []

theorem C2_seq_auto_increment_witness :
    (transmitList (oneRouteState 100 1000 1 10 3 5 [] [] 0)
        [⟨1, 16, .telemetry, 21, 0⟩, ⟨1, 16, .telemetry, 21, 1⟩] true).1 =
      ([⟨1, 16, .telemetry, 21, 0⟩, ⟨1, 16, .telemetry, 21, 1⟩] : List Message).map
        (fun _ => SBResult.success) ∧
    (receiveList (transmitList (oneRouteState 100 1000 1 10 3 5 [] [] 0)
        [⟨1, 16, .telemetry, 21, 0⟩, ⟨1, 16, .telemetry, 21, 1⟩] true).2 10 100
        ([⟨1, 16, .telemetry, 21, 0⟩, ⟨1, 16, .telemetry, 21, 1⟩] : List Message).length).1 =
      (stampedList [⟨1, 16, .telemetry, 21, 0⟩, ⟨1, 16, .telemetry, 21, 1⟩]
          (lookupSeq [] 1)).map (fun m => (SBResult.success, some (QItem.copy m))) ∧
    (∀ i (hi : i < (stampedList [⟨1, 16, .telemetry, 21, 0⟩, ⟨1, 16, .telemetry, 21, 1⟩]
          (lookupSeq [] 1)).length),
      ((stampedList [⟨1, 16, .telemetry, 21, 0⟩, ⟨1, 16, .telemetry, 21, 1⟩]
          (lookupSeq [] 1)).get ⟨i, hi⟩).seqCount = lookupSeq [] 1 + 1 + i) ∧
    (∀ mc : Message, goodMsg 100 1000 1 mc → mc.mtype = .command →
      (CFE_SB_ReceiveBuffer
          (CFE_SB_TransmitMsg (oneRouteState 100 1000 1 10 3 5 [] [] 0) (some mc) true).2
          10 100).buf = some (QItem.copy mc)) :=
  C2_seq_auto_increment 100 1000 1 10 3 5 (by decide) (by decide)
    [⟨1, 16, .telemetry, 21, 0⟩, ⟨1, 16, .telemetry, 21, 1⟩]
    (by decide) (by decide) []

theorem C3_zero_copy_round_trip_witness :
    (CFE_SB_TransmitBuffer
        (setBufferMsg
          (CFE_SB_AllocateMessageBuffer
            ⟨100, 1000, [⟨1, 10, 3⟩], [⟨10, 5, []⟩], [⟨.free, dummyMsg⟩], [], 0⟩ 20).2
          0 ⟨1, 12, .command, 11, 7⟩)
        (some 0) true).1 = .success ∧
    (CFE_SB_ReceiveBuffer
        (CFE_SB_TransmitBuffer
          (setBufferMsg
            (CFE_SB_AllocateMessageBuffer
              ⟨100, 1000, [⟨1, 10, 3⟩], [⟨10, 5, []⟩], [⟨.free, dummyMsg⟩], [], 0⟩ 20).2
            0 ⟨1, 12, .command, 11, 7⟩)
          (some 0) true).2
        10 100).buf = some (QItem.shared 0) :=
  C3_zero_copy_round_trip 100 1000 1 10 3 5 (by decide) (by decide)
    [⟨.free, dummyMsg⟩] [] 0 20 0 (by decide)
    ⟨1, 12, .command, 11, 7⟩ (by decide) (by decide) (by decide) true

theorem C4_released_buffer_rejected_witness :
    CFE_SB_ReleaseMessageBuffer
        (CFE_SB_ReleaseMessageBuffer
          ⟨100, 1000, [], [], [⟨.allocated, dummyMsg⟩], [], 0⟩ (some 0)).2 (some 0) =
      (.bufferInvalid,
        (CFE_SB_ReleaseMessageBuffer
          ⟨100, 1000, [], [], [⟨.allocated, dummyMsg⟩], [], 0⟩ (some 0)).2) ∧
    CFE_SB_TransmitBuffer
        (CFE_SB_ReleaseMessageBuffer
          ⟨100, 1000, [], [], [⟨.allocated, dummyMsg⟩], [], 0⟩ (some 0)).2 (some 0) true =
      (.bufferInvalid,
        (CFE_SB_ReleaseMessageBuffer
          ⟨100, 1000, [], [], [⟨.allocated, dummyMsg⟩], [], 0⟩ (some 0)).2) :=
  C4_released_buffer_rejected
    ⟨100, 1000, [], [], [⟨.allocated, dummyMsg⟩], [], 0⟩ 0 true (by decide)

theorem C5_msg_too_big_witness :
    CFE_SB_TransmitMsg ⟨100, 1000, [⟨1, 10, 3⟩], [⟨10, 5, []⟩], [], [], 0⟩
        (some ⟨1, 200, .command, 0, 0⟩) true =
      (.msgTooBig, ⟨100, 1000, [⟨1, 10, 3⟩], [⟨10, 5, []⟩], [], [], 0⟩) ∧
    (CFE_SB_TransmitMsg ⟨100, 1000, [⟨1, 10, 3⟩], [⟨10, 5, []⟩], [], [], 0⟩
        (some ⟨1, 200, .command, 0, 0⟩) true).2.pipes =
      SBState.pipes ⟨100, 1000, [⟨1, 10, 3⟩], [⟨10, 5, []⟩], [], [], 0⟩ :=
  C5_msg_too_big ⟨100, 1000, [⟨1, 10, 3⟩], [⟨10, 5, []⟩], [], [], 0⟩
    ⟨1, 200, .command, 0, 0⟩ true (by decide) (by decide)

theorem C7_receive_timeout_semantics_witness :
    CFE_SB_ReceiveBuffer ⟨100, 1000, [], [⟨10, 5, []⟩], [], [], 0⟩ 10 (-100) =
      ⟨.badArgument, none, 0, ⟨100, 1000, [], [⟨10, 5, []⟩], [], [], 0⟩⟩ ∧
    CFE_SB_ReceiveBuffer ⟨100, 1000, [], [⟨10, 5, []⟩], [], [], 0⟩ 10 100 =
      ⟨.timeOut, none, Int.toNat 100, ⟨100, 1000, [], [⟨10, 5, []⟩], [], [], 0⟩⟩ ∧
    CFE_SB_ReceiveBuffer ⟨100, 1000, [], [⟨10, 5, []⟩], [], [], 0⟩ 10 0 =
      ⟨.timeOut, none, 0, ⟨100, 1000, [], [⟨10, 5, []⟩], [], [], 0⟩⟩ :=
  ⟨(C7_receive_timeout_semantics ⟨100, 1000, [], [⟨10, 5, []⟩], [], [], 0⟩ 10 (-100)).1
      (by decide),
   (C7_receive_timeout_semantics ⟨100, 1000, [], [⟨10, 5, []⟩], [], [], 0⟩ 10 100).2.1
      ⟨10, 5, []⟩ (by decide) (by decide) (by decide),
   (C7_receive_timeout_semantics ⟨100, 1000, [], [⟨10, 5, []⟩], [], [], 0⟩ 10 0).2.2
      ⟨10, 5, []⟩ (by decide) (by decide)⟩

theorem C8_transmit_rejects_invalid_witness :
    CFE_SB_TransmitMsg ⟨100, 1000, [⟨1, 10, 3⟩], [⟨10, 5, []⟩], [], [], 0⟩ none true =
      (.badArgument, ⟨100, 1000, [⟨1, 10, 3⟩], [⟨10, 5, []⟩], [], [], 0⟩) ∧
    CFE_SB_TransmitMsg ⟨100, 1000, [⟨1, 10, 3⟩], [⟨10, 5, []⟩], [], [], 0⟩
        (some ⟨5000, 12, .command, 0, 0⟩) true =
      (.badArgument, ⟨100, 1000, [⟨1, 10, 3⟩], [⟨10, 5, []⟩], [], [], 0⟩) :=
  ⟨(C8_transmit_rejects_invalid ⟨100, 1000, [⟨1, 10, 3⟩], [⟨10, 5, []⟩], [], [], 0⟩ true).1,
   (C8_transmit_rejects_invalid ⟨100, 1000, [⟨1, 10, 3⟩], [⟨10, 5, []⟩], [], [], 0⟩ true).2
      ⟨5000, 12, .command, 0, 0⟩ (by decide)⟩

theorem C9_allocate_size_check_witness :
    CFE_SB_AllocateMessageBuffer ⟨100, 1000, [], [], [⟨.free, dummyMsg⟩], [], 0⟩ 101 =
      (none, ⟨100, 1000, [], [], [⟨.free, dummyMsg⟩], [], 0⟩) ∧
    (CFE_SB_AllocateMessageBuffer ⟨100, 1000, [], [], [⟨.free, dummyMsg⟩], [], 0⟩ 20).1 =
      some 0 ∧
    (getSlot (CFE_SB_AllocateMessageBuffer
        ⟨100, 1000, [], [], [⟨.free, dummyMsg⟩], [], 0⟩ 20).2.pool 0).state = .allocated :=
  ⟨(C9_allocate_size_check ⟨100, 1000, [], [], [⟨.free, dummyMsg⟩], [], 0⟩ 101).1 (by decide),
   (C9_allocate_size_check ⟨100, 1000, [], [], [⟨.free, dummyMsg⟩], [], 0⟩ 20).2
      0 (by decide) (by decide)⟩

theorem C10_manual_seq_preserved_witness :
    (receiveList
        (CFE_SB_TransmitMsg
          (CFE_SB_TransmitMsg (oneRouteState 100 1000 1 10 3 5 [] [] 0)
            (some ⟨1, 16, .telemetry, 21, 0⟩) true).2
          (some ⟨1, 16, .telemetry, 77, 1⟩) false).2
        10 100 2).1 =
      [(SBResult.success, some (QItem.copy ⟨1, 16, .telemetry, 1, 0⟩)),
       (SBResult.success, some (QItem.copy ⟨1, 16, .telemetry, 77, 1⟩))] :=
  C10_manual_seq_preserved 100 1000 1 10 3 5 (by decide) (by decide)
    ⟨1, 16, .telemetry, 21, 0⟩ ⟨1, 16, .telemetry, 77, 1⟩
    (by decide) (by decide) (by decide) (by decide) []

theorem C6_fifo_order_witness :
    (transmitList (oneRouteState 100 1000 1 10 3 5 [] [] 0)
        [⟨1, 12, .command, 11, 0⟩, ⟨1, 12, .command, 11, 1⟩] false).1 =
      ([⟨1, 12, .command, 11, 0⟩, ⟨1, 12, .command, 11, 1⟩] : List Message).map
        (fun _ => SBResult.success) ∧
    (receiveList (transmitList (oneRouteState 100 1000 1 10 3 5 [] [] 0)
        [⟨1, 12, .command, 11, 0⟩, ⟨1, 12, .command, 11, 1⟩] false).2 10 100
        ([⟨1, 12, .command, 11, 0⟩, ⟨1, 12, .command, 11, 1⟩] : List Message).length).1 =
      ([⟨1, 12, .command, 11, 0⟩, ⟨1, 12, .command, 11, 1⟩] : List Message).map
        (fun m => (SBResult.success, some (QItem.copy m))) ∧
    (CFE_SB_ReceiveBuffer
        (receiveList (transmitList (oneRouteState 100 1000 1 10 3 5 [] [] 0)
          [⟨1, 12, .command, 11, 0⟩, ⟨1, 12, .command, 11, 1⟩] false).2 10 100
          ([⟨1, 12, .command, 11, 0⟩, ⟨1, 12, .command, 11, 1⟩] : List Message).length).2
        10 100).result = .timeOut :=
  C6_fifo_order 100 1000 1 10 3 5 (by decide)
    [⟨1, 12, .command, 11, 0⟩, ⟨1, 12, .command, 11, 1⟩]
    (by decide) (by decide) []

end CFESB
